import Mathlib

/-!
Verification of the database-acquisition and schema-tolerant query layer of
the olist-analytics dashboard.  The Python sources (app/config.py, app/db.py,
app/ui.py, tools/download_db.py) are shallowly embedded: configuration
snapshots become records of optional strings, filesystem state becomes an
optional file size, network behaviour becomes an explicit oracle, and each
Python function becomes a pure Lean function over those.
-/

namespace Olist

/-- Python truthiness of an optional string: `None` and the empty string are
falsy, every other string is truthy. -/
def truthy : Option String → Bool
  | none => false
  | some s => !s.isEmpty

/-- Python `a or b` on optional strings: the left operand when it is truthy,
otherwise the right operand. -/
def pyOr (a b : Option String) : Option String :=
  if truthy a then a else b

/-- Environment variables read by the sources (`os.environ` / `os.getenv`).
`none` means the variable is unset; `some ""` means set to the empty string.
The OWNER/REPO/TAG/ASSET/TOKEN fields are the upper-cased fallback names used
by `_get_secret` in tools/download_db.py. -/
structure Env where
  DB_PATH : Option String
  DB_SCHEMA : Option String
  OWNER : Option String
  REPO : Option String
  TAG : Option String
  ASSET : Option String
  TOKEN : Option String
deriving DecidableEq, Repr

/-- The platform-secrets store (`st.secrets`).  Each field is one key the
sources read: top-level keys `DB_PATH`, `GH_*`, `DB_DOWNLOAD_URL` (app/db.py),
the nested `[db]` section keys `path`, `schema` (app/config.py) and `db_path`
(tools/download_db.py), and the nested `[gh]` section keys
(tools/download_db.py). -/
structure Secrets where
  DB_PATH : Option String
  GH_OWNER : Option String
  GH_REPO : Option String
  GH_TAG : Option String
  GH_ASSET : Option String
  GH_TOKEN : Option String
  DB_DOWNLOAD_URL : Option String
  db_path : Option String
  db_schema : Option String
  db_db_path : Option String
  gh_owner : Option String
  gh_repo : Option String
  gh_tag : Option String
  gh_asset : Option String
  gh_token : Option String
deriving DecidableEq, Repr

/-- app/config.py: `DEFAULT_DUCKDB_PATH = os.getenv("DB_PATH") or
_SECRETS.get("db", {}).get("path") or "olist.duckdb"`. -/
def DEFAULT_DUCKDB_PATH (env : Env) (sec : Secrets) : String :=
  (pyOr env.DB_PATH (pyOr sec.db_path (some "olist.duckdb"))).getD ""

/-- app/config.py: `DEFAULT_SCHEMA = os.getenv("DB_SCHEMA") or
_SECRETS.get("db", {}).get("schema") or "analytics_marts"`. -/
def DEFAULT_SCHEMA (env : Env) (sec : Secrets) : String :=
  (pyOr env.DB_SCHEMA (pyOr sec.db_schema (some "analytics_marts"))).getD ""

/-- app/db.py `_resolve_db_path`: `p = st.secrets.get("DB_PATH") or
os.environ.get("DB_PATH") or default_path`. -/
def resolve_db_path (sec : Secrets) (env : Env) (default_path : String) : String :=
  (pyOr sec.DB_PATH (pyOr env.DB_PATH (some default_path))).getD ""

/-- The database path the app actually resolves: `connect_cached` calls
`_resolve_db_path(config.DEFAULT_DUCKDB_PATH)`. -/
def resolvedDbPath (sec : Secrets) (env : Env) : String :=
  resolve_db_path sec env (DEFAULT_DUCKDB_PATH env sec)

/-- tools/download_db.py `_get_secret`: the secrets value when the section/key
is present (returned even when empty), else the environment value when truthy,
else the default. -/
def get_secret (secVal envVal default : Option String) : Option String :=
  match secVal with
  | some v => some v
  | none => if truthy envVal then envVal else default

/-! ## Remote asset manifests (the Fetcher) -/

/-- One entry of a release manifest, as the JSON the sources read: `name`,
`browser_download_url` (tools/download_db.py) and `id` (app/db.py) may each be
missing. -/
structure Asset where
  name : Option String
  url : Option String
  assetId : Option Nat
deriving DecidableEq, Repr

/-- tools/download_db.py `_resolve_asset_url`: linear-scan the manifest for an
exact name match; on the first match return its `browser_download_url`, but if
that url is falsy, break out and raise (here `.error ()`); raise when no asset
bears the target name. -/
def resolveAssetUrl : List Asset → String → Except Unit String
  | [], _ => .error ()
  | a :: rest, n =>
    if a.name = some n then
      match a.url with
      | some u => if u.isEmpty then .error () else .ok u
      | none => .error ()
    else resolveAssetUrl rest n

/-- app/db.py `_download_from_github_release` asset scan: take the `id` of the
first asset whose name matches, then `if not asset_id: raise` (so a missing or
zero id also raises); `none` models the raise. -/
def findAssetId : List Asset → String → Option Nat
  | [], _ => none
  | a :: rest, n =>
    if a.name = some n then
      match a.assetId with
      | some i => if i = 0 then none else some i
      | none => none
    else findAssetId rest n

/-! ## Filesystem and the presence check -/

/-- Local filesystem state at the resolved database path: `none` when the file
is absent, `some sz` when a file of `sz` bytes exists. -/
abbrev FileState := Option Nat

/-- tools/download_db.py, ensure_db line 80:
`path.exists() and path.stat().st_size > 1024`. -/
def is_present : FileState → Bool
  | none => false
  | some sz => 1024 < sz

/-! ## app/db.py acquisition: `_ensure_local_db` -/

/-- Outcome of one download strategy once its network part actually runs:
either the file is written (with the downloaded size) or an exception is
raised somewhere in the HTTP exchange (status error, asset not found, ...). -/
inductive FetchOutcome where
  | success (size : Nat)
  | failure
deriving DecidableEq, Repr

/-- Network oracle for `_ensure_local_db`: what the GitHub-release strategy
and the direct-URL strategy would each do if their network part runs. -/
structure DlNet where
  gh : FetchOutcome
  direct : FetchOutcome
deriving DecidableEq, Repr

/-- The two acquisition strategies of app/db.py, in source order. -/
inductive Strategy where
  | github
  | direct
deriving DecidableEq, Repr

/-- app/db.py `_download_from_github_release` configuration gate:
`if not all([owner, repo, tag, asset, token]): return False`, with
`tag = st.secrets.get("GH_TAG", "latest")`. -/
def ghPrereqsMet (sec : Secrets) : Bool :=
  truthy sec.GH_OWNER && truthy sec.GH_REPO &&
    truthy (some (sec.GH_TAG.getD "latest")) &&
    truthy sec.GH_ASSET && truthy sec.GH_TOKEN

/-- Whether the GitHub strategy network part would succeed. -/
def ghSucceeds (net : DlNet) : Bool :=
  match net.gh with
  | .success _ => true
  | .failure => false

/-- Result of `_ensure_local_db`: whether it returned normally (`ok = false`
models the final `FileNotFoundError`), which strategies actually performed
network I/O (in order), and the resulting filesystem state. -/
structure EnsureResult where
  ok : Bool
  attempted : List Strategy
  fs : FileState
deriving DecidableEq, Repr

/-- app/db.py `_ensure_local_db`: return at once when the file exists (any
size); otherwise run `_download_from_github_release` (skipped without network
I/O unless all five GH secrets are truthy, exceptions swallowed), then—if that
did not return True—`_download_from_direct_url` (skipped unless
`DB_DOWNLOAD_URL` is truthy, exceptions swallowed), and raise
`FileNotFoundError` when neither succeeded. -/
def ensureLocalDb (sec : Secrets) (net : DlNet) (fs : FileState) : EnsureResult :=
  match fs with
  | some sz => ⟨true, [], some sz⟩
  | none =>
    if ghPrereqsMet sec then
      match net.gh with
      | .success sz => ⟨true, [.github], some sz⟩
      | .failure =>
        if truthy sec.DB_DOWNLOAD_URL then
          match net.direct with
          | .success sz => ⟨true, [.github, .direct], some sz⟩
          | .failure => ⟨false, [.github, .direct], none⟩
        else ⟨false, [.github], none⟩
    else
      if truthy sec.DB_DOWNLOAD_URL then
        match net.direct with
        | .success sz => ⟨true, [.direct], some sz⟩
        | .failure => ⟨false, [.direct], none⟩
      else ⟨false, [], none⟩

/-! ## tools/download_db.py acquisition: `ensure_db` -/

/-- Network oracle for `ensure_db`: the outcome of the release-manifest call
(`requests.get` on the release API) and of the asset download (the size of the
file written, or an exception). -/
structure GhNet where
  manifest : Except Unit (List Asset)
  download : Except Unit Nat
deriving Repr

/-- The error taxonomy of the acquisition path in tools/download_db.py (every
case is a raised `RuntimeError`/HTTP error in the source). -/
inductive AcqError where
  | config
  | transfer
  | notFound
  | tooSmall
deriving DecidableEq, Repr

/-- Result of `ensure_db`: the returned path or the raised error, the number
of network requests performed, and the resulting filesystem state. -/
structure EnsureDbResult where
  result : Except AcqError String
  netCalls : Nat
  fs : FileState
deriving Repr

/-- tools/download_db.py path resolution in `ensure_db`:
`db_path = _get_secret("db", "db_path", "olist.duckdb")` followed by
`db_path = os.environ.get("DB_PATH", db_path)`. -/
def dbPathResolved (sec : Secrets) (env : Env) : String :=
  let p0 := (get_secret sec.db_db_path env.DB_PATH (some "olist.duckdb")).getD ""
  match env.DB_PATH with
  | some v => v
  | none => p0

/-- tools/download_db.py: `owner = _get_secret("gh", "owner") or ""`. -/
def ghOwnerOf (sec : Secrets) (env : Env) : String :=
  (pyOr (get_secret sec.gh_owner env.OWNER none) (some "")).getD ""

/-- tools/download_db.py: `repo = _get_secret("gh", "repo") or ""`. -/
def ghRepoOf (sec : Secrets) (env : Env) : String :=
  (pyOr (get_secret sec.gh_repo env.REPO none) (some "")).getD ""

/-- tools/download_db.py: `asset = _get_secret("gh", "asset", "olist.duckdb")
or "olist.duckdb"`. -/
def ghAssetOf (sec : Secrets) (env : Env) : String :=
  (pyOr (get_secret sec.gh_asset env.ASSET (some "olist.duckdb"))
    (some "olist.duckdb")).getD ""

/-- tools/download_db.py: `token = _get_secret("gh", "token")`. -/
def ghTokenOf (sec : Secrets) (env : Env) : Option String :=
  get_secret sec.gh_token env.TOKEN none

/-- tools/download_db.py: `if not (owner and repo and token): raise`. -/
def ensureDbPrereq (sec : Secrets) (env : Env) : Bool :=
  !(ghOwnerOf sec env).isEmpty && !(ghRepoOf sec env).isEmpty &&
    truthy (ghTokenOf sec env)

/-- tools/download_db.py `ensure_db`: return the path at once when the file
exists with size > 1024; otherwise require owner/repo/token, resolve the
asset url from the release manifest (one network call), download it (a second
network call), and raise when the downloaded file is ≤ 1024 bytes. -/
def ensureDb (sec : Secrets) (env : Env) (net : GhNet) (fs : FileState) :
    EnsureDbResult :=
  if is_present fs then ⟨.ok (dbPathResolved sec env), 0, fs⟩
  else if ensureDbPrereq sec env then
    match net.manifest with
    | .error _ => ⟨.error .transfer, 1, fs⟩
    | .ok assets =>
      match resolveAssetUrl assets (ghAssetOf sec env) with
      | .error _ => ⟨.error .notFound, 1, fs⟩
      | .ok _ =>
        match net.download with
        | .error _ => ⟨.error .transfer, 2, fs⟩
        | .ok sz =>
          if sz ≤ 1024 then ⟨.error .tooSmall, 2, some sz⟩
          else ⟨.ok (dbPathResolved sec env), 2, some sz⟩
  else ⟨.error .config, 0, fs⟩

/-! ## app/db.py `connect_cached` as a process-state machine -/

/-- Process-wide state observable by `connect_cached`: the file at the
resolved path, the `st.cache_resource` slot holding the connection, counters
for `duckdb.connect` and for `SET timezone = UTC`, and the accumulated
list of network fetch attempts. -/
structure AppState where
  fs : FileState
  conn : Option Nat
  opens : Nat
  tzSets : Nat
  fetches : List Strategy
deriving DecidableEq, Repr

/-- Fresh process state over an initial filesystem. -/
def initState (fs0 : FileState) : AppState :=
  ⟨fs0, none, 0, 0, []⟩

/-- One call of app/db.py `connect_cached`: resolve the path, run
`_ensure_local_db` (which may download), then return the cached connection or
open a new one, executing `SET timezone = UTC` right after opening.  The
first component is the handle handed to the caller (`none` when
`_ensure_local_db` raised and no connection is produced). -/
def connectCachedCall (sec : Secrets) (net : DlNet) (s : AppState) :
    Option Nat × AppState :=
  let r := ensureLocalDb sec net s.fs
  let s1 : AppState := { s with fs := r.fs, fetches := s.fetches ++ r.attempted }
  if r.ok then
    match s.conn with
    | some c => (some c, s1)
    | none =>
      let s2 : AppState :=
        { s1 with conn := some 1, opens := s.opens + 1, tzSets := s.tzSets + 1 }
      (some 1, s2)
  else (none, s1)

/-- External events at process scope: a `connect_cached` call, or an external
deletion of the database file. -/
inductive Event where
  | connect
  | externalDelete
deriving DecidableEq, Repr

/-- One event step on the process state. -/
def appStep (sec : Secrets) (net : DlNet) (s : AppState) : Event → AppState
  | .connect => (connectCachedCall sec net s).2
  | .externalDelete => { s with fs := none }

/-- Run a trace of events from a fresh process. -/
def runTrace (sec : Secrets) (net : DlNet) (fs0 : FileState)
    (es : List Event) : AppState :=
  es.foldl (appStep sec net) (initState fs0)

/-! ## app/ui.py `run_first_available` (the fallback query resolver) -/

/-- What one invocation of the query executor on a candidate template does:
raise an exception, or return a data frame (a list of rows). -/
inductive QueryOutcome (R : Type) where
  | err
  | ok (rows : List R)
deriving DecidableEq, Repr

/-- A candidate is skipped by the resolver when it raised, or returned an
empty frame. -/
def skipped {R : Type} : QueryOutcome R → Bool
  | .err => true
  | .ok rows => rows.isEmpty

/-- app/ui.py `run_first_available`: try each candidate in order through the
executor `exec`; an exception or an empty frame means try the next; return
the first non-empty frame; return an empty frame when every candidate is
exhausted.  The second component counts how many candidates were actually
handed to the executor. -/
def run_first_available {T R : Type} (ex : T → QueryOutcome R) :
    List T → List R × Nat
  | [] => ([], 0)
  | t :: rest =>
    match ex t with
    | .err =>
      let r := run_first_available ex rest
      (r.1, r.2 + 1)
    | .ok rows =>
      if rows.isEmpty then
        let r := run_first_available ex rest
        (r.1, r.2 + 1)
      else (rows, 1)

/-! ## app/db.py `run_sql`, `run_sql_cached` and the result cache -/

/-- Python `sql.format(schema=...)` on the templates of this app: every
occurrence of the placeholder `"{schema}"` is replaced by the schema name. -/
def formatSchema (sql schema : String) : String :=
  sql.replace "{schema}" schema

/-- app/db.py `run_sql`: substitute the schema into the template and execute
the substituted text with the params on the cached connection; `engine` is
the execute-and-fetch action of that connection. -/
def run_sql {Df : Type} (engine : String → List String → Df)
    (schema sql : String) (params : List String) : Df :=
  engine (formatSchema sql schema) params

/-- An in-memory result cache: entries of key, value and storage timestamp. -/
def lookupCache {K V : Type} [DecidableEq K] :
    List (K × V × Nat) → K → Option (V × Nat)
  | [], _ => none
  | (key, v, t) :: rest, k => if key = k then some (v, t) else lookupCache rest k

/-- Result of one cached call: the value handed back, the cache afterwards,
and whether a fresh execution happened. -/
structure CacheResult (K V : Type) where
  value : V
  cache : List (K × V × Nat)
  fresh : Bool

/-- Modelled from the spec: the `st.cache_data(ttl=...)` decorator semantics
(the decorator itself is outside this repository).  A cached result younger
than `ttl` seconds is returned without re-executing; otherwise the function
body runs and the fresh result is stored with the current timestamp. -/
def cachedCall {K V : Type} [DecidableEq K] (body : K → V) (ttl : Nat)
    (m : List (K × V × Nat)) (now : Nat) (k : K) : CacheResult K V :=
  match lookupCache m k with
  | some (v, t) =>
    if now < t + ttl then ⟨v, m, false⟩
    else ⟨body k, (k, body k, now) :: m, true⟩
  | none => ⟨body k, (k, body k, now) :: m, true⟩

/-- app/db.py `run_sql_cached`: the same body as `run_sql`, memoized under the
key `(sql, params)` (the decorated function's arguments) with `ttl=300`. -/
def run_sql_cached {Df : Type} (engine : String → List String → Df)
    (schema : String) (m : List ((String × List String) × Df × Nat))
    (now : Nat) (sql : String) (params : List String) :
    CacheResult (String × List String) Df :=
  cachedCall (fun k => run_sql engine schema k.1 k.2) 300 m now (sql, params)

/-- A cache miss for key `k` at time `now`: no entry, or an entry at least
`ttl` seconds old. -/
def isMiss {K V : Type} [DecidableEq K] (ttl : Nat)
    (m : List (K × V × Nat)) (now : Nat) (k : K) : Bool :=
  match lookupCache m k with
  | none => true
  | some (_, t) => t + ttl ≤ now

/-! ## Helper lemmas -/

theorem resolveAssetUrl_append {n : String} (pre : List Asset)
    (h : ∀ b ∈ pre, b.name ≠ some n) (l : List Asset) :
    resolveAssetUrl (pre ++ l) n = resolveAssetUrl l n := by
  induction pre with
  | nil => rfl
  | cons b rest ih =>
    have hb : b.name ≠ some n := h b (List.mem_cons_self b rest)
    have hrest : ∀ x ∈ rest, x.name ≠ some n := fun x hx => h x (List.mem_cons_of_mem b hx)
    simp only [List.cons_append, resolveAssetUrl, if_neg hb]
    exact ih hrest

theorem resolveAssetUrl_not_found {n : String} (assets : List Asset)
    (h : ∀ b ∈ assets, b.name ≠ some n) :
    resolveAssetUrl assets n = .error () := by
  have := resolveAssetUrl_append assets h []
  simpa using this

theorem findAssetId_not_found {n : String} (assets : List Asset)
    (h : ∀ b ∈ assets, b.name ≠ some n) :
    findAssetId assets n = none := by
  induction assets with
  | nil => rfl
  | cons b rest ih =>
    have hb : b.name ≠ some n := h b (List.mem_cons_self b rest)
    have hrest : ∀ x ∈ rest, x.name ≠ some n := fun x hx => h x (List.mem_cons_of_mem b hx)
    simp only [findAssetId, if_neg hb]
    exact ih hrest

theorem rfa_all_skipped {T R : Type} (ex : T → QueryOutcome R) :
    ∀ qs : List T, (∀ x ∈ qs, skipped (ex x) = true) →
      run_first_available ex qs = ([], qs.length) := by
  intro qs
  induction qs with
  | nil => intro _; rfl
  | cons t rest ih =>
    intro h
    have ht : skipped (ex t) = true := h t (List.mem_cons_self t rest)
    have hrest := ih fun x hx => h x (List.mem_cons_of_mem t hx)
    cases he : ex t with
    | err => simp [run_first_available, he, hrest]
    | ok rows =>
      have hempty : rows.isEmpty = true := by
        rw [he] at ht; exact ht
      simp [run_first_available, he, hempty, hrest]

theorem rfa_skip_leading {T R : Type} (ex : T → QueryOutcome R) (pre : List T)
    (h : ∀ x ∈ pre, skipped (ex x) = true) (l : List T) :
    run_first_available ex (pre ++ l) =
      ((run_first_available ex l).1, (run_first_available ex l).2 + pre.length) := by
  induction pre with
  | nil => simp
  | cons t rest ih =>
    have ht : skipped (ex t) = true := h t (List.mem_cons_self t rest)
    have hrest := ih fun x hx => h x (List.mem_cons_of_mem t hx)
    cases he : ex t with
    | err =>
      simp [run_first_available, he, hrest, Nat.add_assoc]
    | ok rows =>
      have hempty : rows.isEmpty = true := by
        rw [he] at ht; exact ht
      simp [run_first_available, he, hempty, hrest, Nat.add_assoc]

/-! ## Claim theorems -/

/-- C3: `is_present` is false exactly when the file is absent or its size is
at most 1024 bytes, and true when the size strictly exceeds 1024 bytes; and
`ensure_db` treats an existing 50-byte file exactly as an absent file: the
returned outcome and the number of network calls coincide, so acquisition is
re-attempted. -/
theorem is_present_threshold_and_corrupt_file_reacquired :
    (∀ fs : FileState, is_present fs = false ↔
      (fs = none ∨ ∃ sz, fs = some sz ∧ sz ≤ 1024)) ∧
    (∀ fs : FileState, is_present fs = true ↔ ∃ sz, fs = some sz ∧ 1024 < sz) ∧
    (∀ (sec : Secrets) (env : Env) (net : GhNet),
      (ensureDb sec env net (some 50)).result = (ensureDb sec env net none).result ∧
      (ensureDb sec env net (some 50)).netCalls = (ensureDb sec env net none).netCalls) := by
  refine ⟨?_, ?_, ?_⟩
  · intro fs
    cases fs with
    | none => simp [is_present]
    | some sz => simp [is_present, Nat.not_lt]
  · intro fs
    cases fs with
    | none => simp [is_present]
    | some sz => simp [is_present]
  · intro sec env net
    have h50 : is_present (some 50) = false := by decide
    have hn : is_present (none : FileState) = false := rfl
    unfold ensureDb
    rw [h50, hn]
    simp only [Bool.false_eq_true, if_false]
    by_cases hp : ensureDbPrereq sec env = true
    · rw [if_pos hp, if_pos hp]
      cases net.manifest with
      | error e => exact ⟨rfl, rfl⟩
      | ok assets =>
        dsimp only
        cases hr : resolveAssetUrl assets (ghAssetOf sec env) with
        | error e => exact ⟨rfl, rfl⟩
        | ok u =>
          dsimp only
          cases net.download with
          | error e => exact ⟨rfl, rfl⟩
          | ok sz =>
            dsimp only
            by_cases hsz : sz ≤ 1024
            · exact ⟨rfl, rfl⟩
            · exact ⟨rfl, rfl⟩
    · rw [if_neg hp, if_neg hp]; exact ⟨rfl, rfl⟩

/-- C6: the Fetcher resolves exactly the locator of the asset whose name
equals the target name — for the manifest `[a.db, b.db]` and target `b.db`,
the second asset's url (and, in the app/db.py variant, its id) — and raises
the not-found error when no asset bears the target name. -/
theorem fetcher_resolves_named_asset (pre post assets : List Asset)
    (a : Asset) (n u : String)
    (hpre : ∀ b ∈ pre, b.name ≠ some n)
    (hname : a.name = some n) (hurl : a.url = some u) (hne : u.isEmpty = false)
    (habsent : ∀ b ∈ assets, b.name ≠ some n) :
    resolveAssetUrl (pre ++ a :: post) n = .ok u ∧
    resolveAssetUrl assets n = .error () ∧
    findAssetId assets n = none ∧
    resolveAssetUrl
      [⟨some "a.db", some "u1", some 1⟩, ⟨some "b.db", some "u2", some 2⟩]
      "b.db" = .ok "u2" ∧
    findAssetId
      [⟨some "a.db", some "u1", some 1⟩, ⟨some "b.db", some "u2", some 2⟩]
      "b.db" = some 2 := by
  refine ⟨?_, resolveAssetUrl_not_found assets habsent,
    findAssetId_not_found assets habsent, rfl, rfl⟩
  rw [resolveAssetUrl_append pre hpre]
  simp [resolveAssetUrl, hname, hurl, hne]

/-- C2: the fallback resolver skips, in order, every candidate that raises or
returns an empty frame, returns the first non-empty frame having evaluated
exactly the candidates up to and including it (none after it), and returns an
explicit empty frame — not an error — when every candidate is exhausted. -/
theorem resolve_first_fallback {T R : Type} (ex : T → QueryOutcome R)
    (pre post : List T) (t : T) (rows : List R)
    (hpre : ∀ x ∈ pre, skipped (ex x) = true)
    (ht : ex t = .ok rows) (hrows : rows ≠ []) :
    run_first_available ex (pre ++ t :: post) = (rows, pre.length + 1) ∧
    (∀ qs : List T, (∀ x ∈ qs, skipped (ex x) = true) →
      run_first_available ex qs = ([], qs.length)) := by
  refine ⟨?_, rfa_all_skipped ex⟩
  rw [rfa_skip_leading ex pre hpre]
  have hempty : rows.isEmpty = false := by
    cases rows with
    | nil => exact absurd rfl hrows
    | cons a l => rfl
  simp [run_first_available, ht, hempty, Nat.add_comm]

/-- Closed witness for C2: candidate 0 raises, candidate 1 is empty,
candidate 2 has three rows, candidate 3 is never reached; only three
candidates are evaluated, and an all-skipped list yields the empty frame. -/
theorem resolve_first_fallback_witness :
    run_first_available
      (fun n : Nat =>
        if n = 0 then QueryOutcome.err
        else if n = 1 then QueryOutcome.ok ([] : List Nat)
        else QueryOutcome.ok [7, 8, 9])
      [0, 1, 2, 3] = ([7, 8, 9], 3) ∧
    run_first_available
      (fun n : Nat =>
        if n = 0 then QueryOutcome.err
        else if n = 1 then QueryOutcome.ok ([] : List Nat)
        else QueryOutcome.ok [7, 8, 9])
      [0, 1] = ([], 2) := by
  have h := resolve_first_fallback
    (fun n : Nat =>
      if n = 0 then QueryOutcome.err
      else if n = 1 then QueryOutcome.ok ([] : List Nat)
      else QueryOutcome.ok [7, 8, 9])
    [0, 1] [3] 2 [7, 8, 9] (by decide) rfl (by decide)
  exact ⟨h.1, h.2 [0, 1] (by decide)⟩

/-- Closed witness for C6 at a concrete manifest. -/
theorem fetcher_resolves_named_asset_witness :
    resolveAssetUrl
      [⟨some "a.db", some "u1", some 1⟩, ⟨some "b.db", some "u2", some 2⟩]
      "b.db" = .ok "u2" ∧
    resolveAssetUrl [⟨some "a.db", some "u1", some 1⟩] "b.db" = .error () := by
  have h := fetcher_resolves_named_asset
    [⟨some "a.db", some "u1", some 1⟩] [] [⟨some "a.db", some "u1", some 1⟩]
    ⟨some "b.db", some "u2", some 2⟩ "b.db" "u2"
    (by decide) rfl rfl (by decide) (by decide)
  exact ⟨h.1, h.2.1⟩

/-- C7: the query executor memoizes results under the key (query text,
params) with a 300-second TTL: the first call executes freshly, a second call
with the same template and params within the TTL window returns the cached
value without re-executing, and a call once the TTL has elapsed issues a
fresh execution. -/
theorem query_executor_ttl_memoization {Df : Type}
    (engine : String → List String → Df) (schema sql : String)
    (params : List String) (t0 t1 t2 : Nat)
    (h1 : t1 < t0 + 300) (h2 : t0 + 300 ≤ t2) :
    (run_sql_cached engine schema [] t0 sql params).fresh = true ∧
    (run_sql_cached engine schema
      (run_sql_cached engine schema [] t0 sql params).cache t1 sql params).fresh
      = false ∧
    (run_sql_cached engine schema
      (run_sql_cached engine schema [] t0 sql params).cache t1 sql params).value
      = (run_sql_cached engine schema [] t0 sql params).value ∧
    (run_sql_cached engine schema
      (run_sql_cached engine schema [] t0 sql params).cache t2 sql params).fresh
      = true := by
  have hc : (run_sql_cached engine schema [] t0 sql params).cache =
      [((sql, params), run_sql engine schema sql params, t0)] := rfl
  have hv : (run_sql_cached engine schema [] t0 sql params).value =
      run_sql engine schema sql params := rfl
  have hnl : ¬t2 < t0 + 300 := Nat.not_lt.mpr h2
  refine ⟨rfl, ?_, ?_, ?_⟩
  · rw [hc]
    simp [run_sql_cached, cachedCall, lookupCache, h1]
  · rw [hc, hv]
    simp [run_sql_cached, cachedCall, lookupCache, h1]
  · rw [hc]
    simp [run_sql_cached, cachedCall, lookupCache, hnl]

/-- Closed witness for C7 at concrete times 0, 299 and 300. -/
theorem query_executor_ttl_memoization_witness :
    (run_sql_cached (fun _ _ => (0 : Nat)) "s" [] 0 "q" []).fresh = true ∧
    (run_sql_cached (fun _ _ => (0 : Nat)) "s"
      (run_sql_cached (fun _ _ => (0 : Nat)) "s" [] 0 "q" []).cache
      299 "q" []).fresh = false ∧
    (run_sql_cached (fun _ _ => (0 : Nat)) "s"
      (run_sql_cached (fun _ _ => (0 : Nat)) "s" [] 0 "q" []).cache
      300 "q" []).fresh = true := by
  have h := query_executor_ttl_memoization (fun _ _ => (0 : Nat)) "s" "q" []
    0 299 300 (by omega) (by omega)
  exact ⟨h.1, h.2.1, h.2.2.2⟩

/-- C10: `run_sql_cached` and `run_sql` substitute the same schema into the
template and run the same substituted text with the same params on the same
engine, so on a cache miss `run_sql_cached` returns exactly the result of
`run_sql`, freshly executed. -/
theorem run_sql_cached_miss_refines_run_sql {Df : Type}
    (engine : String → List String → Df) (schema : String)
    (m : List ((String × List String) × Df × Nat)) (now : Nat)
    (sql : String) (params : List String)
    (hmiss : isMiss 300 m now (sql, params) = true) :
    (run_sql_cached engine schema m now sql params).value =
      run_sql engine schema sql params ∧
    (run_sql_cached engine schema m now sql params).fresh = true := by
  cases hl : lookupCache m (sql, params) with
  | none => simp [run_sql_cached, cachedCall, hl]
  | some vt =>
    obtain ⟨v, t⟩ := vt
    have hle : t + 300 ≤ now := by
      unfold isMiss at hmiss
      rw [hl] at hmiss
      exact of_decide_eq_true hmiss
    have hnl : ¬now < t + 300 := Nat.not_lt.mpr hle
    simp [run_sql_cached, cachedCall, hl, hnl]

/-- Closed witness for C10 on an empty cache. -/
theorem run_sql_cached_miss_refines_run_sql_witness :
    (run_sql_cached (fun s p => s ++ String.intercalate "," p) "marts"
      [] 0 "select from \x7bschema\x7d.t" ["a"]).value =
      run_sql (fun s p => s ++ String.intercalate "," p) "marts"
        "select from \x7bschema\x7d.t" ["a"] := by
  exact (run_sql_cached_miss_refines_run_sql
    (fun s p => s ++ String.intercalate "," p) "marts" [] 0
    "select from \x7bschema\x7d.t" ["a"] rfl).1

theorem ensureDb_ok_present (sec : Secrets) (env : Env) (net : GhNet)
    (fs : FileState) (p : String)
    (h : (ensureDb sec env net fs).result = Except.ok p) :
    is_present (ensureDb sec env net fs).fs = true := by
  by_cases hpres : is_present fs = true
  · simp [ensureDb, hpres]
  · by_cases hpre : ensureDbPrereq sec env = true
    · obtain ⟨mani, dl⟩ := net
      cases mani with
      | error e => simp [ensureDb, hpres, hpre] at h
      | ok assets =>
        cases hr : resolveAssetUrl assets (ghAssetOf sec env) with
        | error e => simp [ensureDb, hpres, hpre, hr] at h
        | ok u =>
          cases dl with
          | error e => simp [ensureDb, hpres, hpre, hr] at h
          | ok sz =>
            by_cases hsz : sz ≤ 1024
            · simp [ensureDb, hpres, hpre, hr, hsz] at h
            · simp [ensureDb, hpres, hpre, hr, hsz]
              simp [is_present]
              omega
    · simp [ensureDb, hpres, hpre] at h

/-- C5: `ensure_db` is idempotent: when the file is already present and valid
it returns immediately with zero network calls and an unchanged filesystem,
and after any successful call a second call performs zero network calls. -/
theorem ensure_db_idempotent (sec : Secrets) (env : Env) (net net2 : GhNet)
    (fs : FileState) :
    (is_present fs = true →
      ensureDb sec env net fs =
        ⟨.ok (dbPathResolved sec env), 0, fs⟩) ∧
    (∀ p, (ensureDb sec env net fs).result = .ok p →
      (ensureDb sec env net2 (ensureDb sec env net fs).fs).netCalls = 0) := by
  constructor
  · intro h
    simp [ensureDb, h]
  · intro p hp
    have hpres := ensureDb_ok_present sec env net fs p hp
    generalize hX : (ensureDb sec env net fs).fs = X at hpres ⊢
    simp [ensureDb, hpres]

/-- Closed witness for C5: with a valid 2000-byte local file, both calls make
zero network calls and the second call returns at once. -/
theorem ensure_db_idempotent_witness :
    ensureDb
      ⟨none, none, none, none, none, none, none, none, none, none, none,
        none, none, none, none⟩
      ⟨none, none, none, none, none, none, none⟩
      ⟨.error (), .error ()⟩ (some 2000) =
      ⟨.ok "olist.duckdb", 0, some 2000⟩ ∧
    (ensureDb
      ⟨none, none, none, none, none, none, none, none, none, none, none,
        none, none, none, none⟩
      ⟨none, none, none, none, none, none, none⟩
      ⟨.error (), .error ()⟩
      (ensureDb
        ⟨none, none, none, none, none, none, none, none, none, none, none,
          none, none, none, none⟩
        ⟨none, none, none, none, none, none, none⟩
        ⟨.error (), .error ()⟩ (some 2000)).fs).netCalls = 0 := by
  have h := ensure_db_idempotent
    ⟨none, none, none, none, none, none, none, none, none, none, none,
      none, none, none, none⟩
    ⟨none, none, none, none, none, none, none⟩
    ⟨.error (), .error ()⟩ ⟨.error (), .error ()⟩ (some 2000)
  exact ⟨h.1 (by decide), h.2 "olist.duckdb" (by exact congrArg EnsureDbResult.result (h.1 (by decide)))⟩

/-- C4 counterexample: with the secrets key `DB_PATH` set to `"secrets.db"`
and the environment variable `DB_PATH` set to `"env.db"`, the resolved
database path is the secrets value, not the environment value —
`_resolve_db_path` checks `st.secrets` before `os.environ`, so a set
environment variable does not beat a secrets value. -/
theorem env_does_not_beat_secrets_for_db_path :
    resolvedDbPath
      ⟨some "secrets.db", none, none, none, none, none, none, none, none,
        none, none, none, none, none, none⟩
      ⟨some "env.db", none, none, none, none, none, none⟩ = "secrets.db" ∧
    ("secrets.db" : String) ≠ "env.db" := by
  exact ⟨rfl, by decide⟩

/-- C4 (amended): the resolved schema name follows environment >
secrets > hard-coded default, but the resolved database path follows
secrets `DB_PATH` > environment `DB_PATH` > secrets `db.path` > hard-coded
default: a set secrets `DB_PATH` beats the environment variable. -/
theorem config_precedence (sec : Secrets) (env : Env) :
    (truthy sec.DB_PATH = true →
      resolvedDbPath sec env = sec.DB_PATH.getD "") ∧
    (truthy sec.DB_PATH = false → truthy env.DB_PATH = true →
      resolvedDbPath sec env = env.DB_PATH.getD "") ∧
    (truthy sec.DB_PATH = false → truthy env.DB_PATH = false →
      truthy sec.db_path = true →
      resolvedDbPath sec env = sec.db_path.getD "") ∧
    (truthy sec.DB_PATH = false → truthy env.DB_PATH = false →
      truthy sec.db_path = false →
      resolvedDbPath sec env = "olist.duckdb") ∧
    (truthy env.DB_SCHEMA = true →
      DEFAULT_SCHEMA env sec = env.DB_SCHEMA.getD "") ∧
    (truthy env.DB_SCHEMA = false → truthy sec.db_schema = true →
      DEFAULT_SCHEMA env sec = sec.db_schema.getD "") ∧
    (truthy env.DB_SCHEMA = false → truthy sec.db_schema = false →
      DEFAULT_SCHEMA env sec = "analytics_marts") := by
  refine ⟨?_, ?_, ?_, ?_, ?_, ?_, ?_⟩
  · intro h
    simp [resolvedDbPath, resolve_db_path, pyOr, h]
  · intro h1 h2
    simp [resolvedDbPath, resolve_db_path, pyOr, h1, h2]
  · intro h1 h2 h3
    simp [resolvedDbPath, resolve_db_path, DEFAULT_DUCKDB_PATH, pyOr,
      h1, h2, h3]
  · intro h1 h2 h3
    simp [resolvedDbPath, resolve_db_path, DEFAULT_DUCKDB_PATH, pyOr,
      h1, h2, h3]
  · intro h
    simp [DEFAULT_SCHEMA, pyOr, h]
  · intro h1 h2
    simp [DEFAULT_SCHEMA, pyOr, h1, h2]
  · intro h1 h2
    simp [DEFAULT_SCHEMA, pyOr, h1, h2]

/-- Closed witness for the amended C4 at concrete snapshots. -/
theorem config_precedence_witness :
    resolvedDbPath
      ⟨none, none, none, none, none, none, none, some "nested.db", none,
        none, none, none, none, none, none⟩
      ⟨some "env.db", none, none, none, none, none, none⟩ = "env.db" ∧
    DEFAULT_SCHEMA
      ⟨none, some "env_schema", none, none, none, none, none⟩
      ⟨none, none, none, none, none, none, none, none, some "sec_schema",
        none, none, none, none, none, none⟩ = "env_schema" := by
  have h := config_precedence
    ⟨none, none, none, none, none, none, none, some "nested.db", none,
      none, none, none, none, none, none⟩
    ⟨some "env.db", none, none, none, none, none, none⟩
  have h2 := config_precedence
    ⟨none, none, none, none, none, none, none, none, some "sec_schema",
      none, none, none, none, none, none⟩
    ⟨none, some "env_schema", none, none, none, none, none⟩
  exact ⟨h.2.1 rfl rfl, h2.2.2.2.2.1 rfl⟩

/-- C1: with the file absent, `_ensure_local_db` tries strategies in the
fixed order GitHub-release first, then direct-URL: the list of strategies
that perform network I/O is always a sublist of [github, direct]; the GitHub
strategy runs exactly when its five configuration values are truthy; the
direct-URL strategy runs exactly when its URL is configured and the GitHub
strategy did not already succeed; and when the GitHub strategy is configured
and its fetch succeeds, it is the only attempt and ensure succeeds. -/
theorem ensure_strategy_priority (sec : Secrets) (net : DlNet) :
    ((ensureLocalDb sec net none).attempted.Sublist
      [Strategy.github, Strategy.direct]) ∧
    (Strategy.github ∈ (ensureLocalDb sec net none).attempted ↔
      ghPrereqsMet sec = true) ∧
    (Strategy.direct ∈ (ensureLocalDb sec net none).attempted ↔
      (truthy sec.DB_DOWNLOAD_URL = true ∧
        ¬(ghPrereqsMet sec = true ∧ ghSucceeds net = true))) ∧
    (ghPrereqsMet sec = true → ghSucceeds net = true →
      (ensureLocalDb sec net none).attempted = [Strategy.github] ∧
      (ensureLocalDb sec net none).ok = true) := by
  obtain ⟨g, d⟩ := net
  by_cases hg : ghPrereqsMet sec = true
  · cases g with
    | success sz =>
      refine ⟨?_, ?_, ?_, ?_⟩ <;>
        simp [ensureLocalDb, ghSucceeds, hg]
    | failure =>
      by_cases hu : truthy sec.DB_DOWNLOAD_URL = true
      · cases d with
        | success sz =>
          refine ⟨?_, ?_, ?_, ?_⟩ <;>
            simp [ensureLocalDb, ghSucceeds, hg, hu]
        | failure =>
          refine ⟨?_, ?_, ?_, ?_⟩ <;>
            simp [ensureLocalDb, ghSucceeds, hg, hu]
      · refine ⟨?_, ?_, ?_, ?_⟩ <;>
          simp [ensureLocalDb, ghSucceeds, hg, hu]
  · by_cases hu : truthy sec.DB_DOWNLOAD_URL = true
    · cases d with
      | success sz =>
        refine ⟨?_, ?_, ?_, ?_⟩ <;>
          simp [ensureLocalDb, ghSucceeds, hg, hu]
      | failure =>
        refine ⟨?_, ?_, ?_, ?_⟩ <;>
          simp [ensureLocalDb, ghSucceeds, hg, hu]
    · refine ⟨?_, ?_, ?_, ?_⟩ <;>
        simp [ensureLocalDb, ghSucceeds, hg, hu]

/-- Closed witness for C1: full GitHub configuration and a succeeding GitHub
fetch attempt only the GitHub strategy; no GitHub configuration but a
configured URL attempts only the direct strategy. -/
theorem ensure_strategy_priority_witness :
    (ensureLocalDb
      ⟨none, some "o", some "r", none, some "a.db", some "tok", some "u",
        none, none, none, none, none, none, none, none⟩
      ⟨.success 5000, .failure⟩ none).attempted = [Strategy.github] ∧
    Strategy.direct ∈
      (ensureLocalDb
        ⟨none, none, none, none, none, none, some "u", none, none, none,
          none, none, none, none, none⟩
        ⟨.failure, .success 5000⟩ none).attempted := by
  have h1 := ensure_strategy_priority
    ⟨none, some "o", some "r", none, some "a.db", some "tok", some "u",
      none, none, none, none, none, none, none, none⟩
    ⟨.success 5000, .failure⟩
  have h2 := ensure_strategy_priority
    ⟨none, none, none, none, none, none, some "u", none, none, none,
      none, none, none, none, none⟩
    ⟨.failure, .success 5000⟩
  refine ⟨(h1.2.2.2 (by decide) rfl).1, ?_⟩
  exact h2.2.2.1.mpr (by decide)

/-- The process invariant of the cached connection: the UTC session setting
has run exactly as often as a connection was opened, and either no connection
was ever opened or exactly the one cached handle exists. -/
def ConnInv (s : AppState) : Prop :=
  s.tzSets = s.opens ∧
    ((s.conn = none ∧ s.opens = 0) ∨ (s.conn = some 1 ∧ s.opens = 1))

theorem connInv_init (fs0 : FileState) : ConnInv (initState fs0) :=
  ⟨rfl, Or.inl ⟨rfl, rfl⟩⟩

theorem connInv_step (sec : Secrets) (net : DlNet) (s : AppState)
    (h : ConnInv s) (e : Event) : ConnInv (appStep sec net s e) := by
  obtain ⟨htz, hcase⟩ := h
  cases e with
  | externalDelete => exact ⟨htz, hcase⟩
  | connect =>
    show ConnInv (connectCachedCall sec net s).2
    by_cases hok : (ensureLocalDb sec net s.fs).ok = true
    · cases hc : s.conn with
      | some c =>
        have heq : (connectCachedCall sec net s).2.conn = s.conn ∧
            (connectCachedCall sec net s).2.opens = s.opens ∧
            (connectCachedCall sec net s).2.tzSets = s.tzSets := by
          simp [connectCachedCall, hok, hc]
        refine ⟨?_, ?_⟩
        · rw [heq.2.2, heq.2.1]; exact htz
        · rw [heq.1, heq.2.1]; exact hcase
      | none =>
        rcases hcase with ⟨_, ho⟩ | ⟨h1, _⟩
        · have heq : (connectCachedCall sec net s).2.conn = some 1 ∧
              (connectCachedCall sec net s).2.opens = s.opens + 1 ∧
              (connectCachedCall sec net s).2.tzSets = s.tzSets + 1 := by
            simp [connectCachedCall, hok, hc]
          refine ⟨?_, Or.inr ⟨heq.1, ?_⟩⟩
          · rw [heq.2.2, heq.2.1, htz]
          · rw [heq.2.1, ho]
        · rw [hc] at h1; cases h1
    · have hok2 : (ensureLocalDb sec net s.fs).ok = false := by
        simpa using hok
      have heq : (connectCachedCall sec net s).2.conn = s.conn ∧
          (connectCachedCall sec net s).2.opens = s.opens ∧
          (connectCachedCall sec net s).2.tzSets = s.tzSets := by
        simp [connectCachedCall, hok2]
      refine ⟨?_, ?_⟩
      · rw [heq.2.2, heq.2.1]; exact htz
      · rw [heq.1, heq.2.1]; exact hcase

theorem connInv_trace (sec : Secrets) (net : DlNet) (es : List Event) :
    ∀ s : AppState, ConnInv s → ConnInv (es.foldl (appStep sec net) s) := by
  induction es with
  | nil => exact fun s h => h
  | cons e rest ih =>
    intro s h
    exact ih (appStep sec net s e) (connInv_step sec net s h e)

/-- C8: across any event trace from a fresh process, `connect_cached` opens
the underlying database at most once (every successful call returns the one
cached handle), runs `SET timezone = UTC` exactly as often as it opens (so
exactly once, immediately after the one open), and runs `_ensure_local_db`
before the connection is opened: a call whose ensure fails opens nothing and
returns no handle, while a call on a cached handle re-returns it without a
new open. -/
theorem connect_cached_single_open (sec : Secrets) (net : DlNet)
    (fs0 : FileState) (es : List Event) :
    (runTrace sec net fs0 es).opens ≤ 1 ∧
    (runTrace sec net fs0 es).tzSets = (runTrace sec net fs0 es).opens ∧
    ((runTrace sec net fs0 es).conn = none ∨
      (runTrace sec net fs0 es).conn = some 1) ∧
    (∀ s : AppState, s.conn = some 1 →
      (ensureLocalDb sec net s.fs).ok = true →
      (connectCachedCall sec net s).1 = some 1 ∧
      (connectCachedCall sec net s).2.opens = s.opens ∧
      (connectCachedCall sec net s).2.tzSets = s.tzSets) ∧
    (∀ s : AppState, (ensureLocalDb sec net s.fs).ok = false →
      (connectCachedCall sec net s).1 = none ∧
      (connectCachedCall sec net s).2.opens = s.opens ∧
      (connectCachedCall sec net s).2.tzSets = s.tzSets) := by
  have hinv := connInv_trace sec net es (initState fs0) (connInv_init fs0)
  obtain ⟨htz, hcase⟩ := hinv
  refine ⟨?_, htz, ?_, ?_, ?_⟩
  · rcases hcase with ⟨_, ho⟩ | ⟨_, ho⟩ <;>
      simp [runTrace, ho]
  · rcases hcase with ⟨hn, _⟩ | ⟨h1, _⟩
    · exact Or.inl hn
    · exact Or.inr h1
  · intro s hc hok
    unfold connectCachedCall
    rw [if_pos hok, hc]
    exact ⟨rfl, rfl, rfl⟩
  · intro s hok
    unfold connectCachedCall
    rw [if_neg (by simp [hok])]
    exact ⟨rfl, rfl, rfl⟩

/-- Closed witness for C8: two successful connects open once, set the time
zone once, and both hand back handle 1. -/
theorem connect_cached_single_open_witness :
    (runTrace
      ⟨none, none, none, none, none, none, none, none, none, none, none,
        none, none, none, none⟩
      ⟨.failure, .failure⟩ (some 5000)
      [Event.connect, Event.connect]).opens ≤ 1 ∧
    (connectCachedCall
      ⟨none, none, none, none, none, none, none, none, none, none, none,
        none, none, none, none⟩
      ⟨.failure, .failure⟩ ⟨some 5000, some 1, 1, 1, []⟩).1 = some 1 := by
  have h := connect_cached_single_open
    ⟨none, none, none, none, none, none, none, none, none, none, none,
      none, none, none, none⟩
    ⟨.failure, .failure⟩ (some 5000) [Event.connect, Event.connect]
  exact ⟨h.1, (h.2.2.2.1 ⟨some 5000, some 1, 1, 1, []⟩ rfl rfl).1⟩

theorem ensureLocalDb_attempts_when_absent (sec : Secrets) (net : DlNet)
    (h : ghPrereqsMet sec = true ∨ truthy sec.DB_DOWNLOAD_URL = true) :
    (ensureLocalDb sec net none).attempted ≠ [] := by
  obtain ⟨g, d⟩ := net
  by_cases hg : ghPrereqsMet sec = true
  · cases g <;> by_cases hu : truthy sec.DB_DOWNLOAD_URL = true <;>
      cases d <;> simp [ensureLocalDb, hg, hu]
  · have hu : truthy sec.DB_DOWNLOAD_URL = true := h.resolve_left hg
    cases d <;> simp [ensureLocalDb, hg, hu]

/-- C9 counterexample: with only a direct URL configured, a first
`connect_cached` call on a present 5000-byte file performs no fetch (the file
is verified present), but after an external deletion the next call performs a
new fetch attempt — acquisition IS retried mid-process, contradicting the
claim that it is never retried once the file was verified. -/
theorem acquisition_retried_after_external_delete :
    (runTrace
      ⟨none, none, none, none, none, none, some "https://x/db", none, none,
        none, none, none, none, none, none⟩
      ⟨.failure, .success 5000⟩ (some 5000) [Event.connect]).fetches = [] ∧
    (runTrace
      ⟨none, none, none, none, none, none, some "https://x/db", none, none,
        none, none, none, none, none, none⟩
      ⟨.failure, .success 5000⟩ (some 5000)
      [Event.connect, Event.externalDelete, Event.connect]).fetches =
      [Strategy.direct] := by
  exact ⟨rfl, rfl⟩

/-- C9 (amended): `connect_cached` re-runs `_ensure_local_db` on every call,
so as long as the file remains present (no external deletion) no fetch is
ever attempted for the remainder of the process; but when the file is absent
— including after an external deletion — the next call re-attempts
acquisition whenever some strategy is configured. -/
theorem acquisition_rechecked_every_call (sec : Secrets) (net : DlNet)
    (sz : Nat) (es : List Event)
    (hconn : ∀ e ∈ es, e = Event.connect) :
    (runTrace sec net (some sz) es).fetches = [] ∧
    (∀ s : AppState, s.fs = none →
      (ghPrereqsMet sec = true ∨ truthy sec.DB_DOWNLOAD_URL = true) →
      (connectCachedCall sec net s).2.fetches ≠ s.fetches) := by
  constructor
  · have key : ∀ (l : List Event) (s : AppState),
        (∀ e ∈ l, e = Event.connect) → s.fs.isSome → s.fetches = [] →
        (l.foldl (appStep sec net) s).fetches = [] := by
      intro l
      induction l with
      | nil => intro s _ _ hf; exact hf
      | cons e rest ih =>
        intro s hl hfs hf
        have he : e = Event.connect := hl e (List.mem_cons_self e rest)
        subst he
        obtain ⟨v, hv⟩ := Option.isSome_iff_exists.mp hfs
        have hens : ensureLocalDb sec net s.fs = ⟨true, [], some v⟩ := by
          rw [hv]; rfl
        have hstep : (appStep sec net s Event.connect).fetches = [] ∧
            (appStep sec net s Event.connect).fs.isSome := by
          cases hc : s.conn <;>
            simp [appStep, connectCachedCall, hens, hc, hf]
        exact ih _ (fun x hx => hl x (List.mem_cons_of_mem _ hx))
          hstep.2 hstep.1
    exact key es (initState (some sz)) hconn rfl rfl
  · intro s hfs hcfg heq
    have hne := ensureLocalDb_attempts_when_absent sec net hcfg
    have hlen : (connectCachedCall sec net s).2.fetches.length =
        s.fetches.length + (ensureLocalDb sec net s.fs).attempted.length := by
      by_cases hok : (ensureLocalDb sec net s.fs).ok = true
      · cases hc : s.conn <;> simp [connectCachedCall, hok, hc]
      · have hok2 : (ensureLocalDb sec net s.fs).ok = false := by
          simpa using hok
        simp [connectCachedCall, hok2]
    rw [heq] at hlen
    rw [hfs] at hlen
    have : (ensureLocalDb sec net none).attempted.length ≠ 0 := by
      intro h0
      exact hne (List.length_eq_zero.mp h0)
    omega

/-- Closed witness for the amended C9: two connects on a present file fetch
nothing, and one connect on an absent file with a configured URL fetches. -/
theorem acquisition_rechecked_every_call_witness :
    (runTrace
      ⟨none, none, none, none, none, none, some "https://x/db", none, none,
        none, none, none, none, none, none⟩
      ⟨.failure, .success 5000⟩ (some 5000)
      [Event.connect, Event.connect]).fetches = [] ∧
    (connectCachedCall
      ⟨none, none, none, none, none, none, some "https://x/db", none, none,
        none, none, none, none, none, none⟩
      ⟨.failure, .success 5000⟩ (initState none)).2.fetches ≠ [] := by
  have h := acquisition_rechecked_every_call
    ⟨none, none, none, none, none, none, some "https://x/db", none, none,
      none, none, none, none, none, none⟩
    ⟨.failure, .success 5000⟩ 5000 [Event.connect, Event.connect]
    (by decide)
  refine ⟨h.1, ?_⟩
  have h2 := h.2 (initState none) rfl (Or.inr (by decide))
  simpa using h2

end Olist
